import Mathlib

/-!
Verification development for the ai-doc-reader financial-figure extraction
pipeline.  The TypeScript sources are embedded shallowly: JS strings become
`List Char` (with `String` used where only concatenation happens), JSON values
become the inductive `JsValue`, the platform's `JSON.parse` / `JSON.stringify`
are modelled by an executable recursive-descent reader and printer covering
the fragment the application exchanges (objects, arrays, strings without
escape-heavy content, integer numbers, booleans, null), and the wall clock
read by `new Date().getFullYear()` is passed as an explicit `now` parameter.
-/

namespace DocReader

abbrev Str := List Char

/-! ## Decimal printing of numbers, as produced by JS template interpolation -/

/-- Digit character for a value below ten, as used by decimal printing. -/
def decDigit (k : Nat) : Char :=
  match k with
  | 0 => '0' | 1 => '1' | 2 => '2' | 3 => '3' | 4 => '4'
  | 5 => '5' | 6 => '6' | 7 => '7' | 8 => '8' | _ => '9'

/-- Digit-string accumulation with fuel; `natDec` instantiates the fuel so
that the recursion is structural and kernel-reducible. -/
def natDecGo : Nat → Nat → Str
  | 0, _ => []
  | fuel + 1, n =>
      if n < 10 then [decDigit n]
      else natDecGo fuel (n / 10) ++ [decDigit (n % 10)]

/-- Decimal digit string of a natural number, most significant digit first. -/
def natDec (n : Nat) : Str := natDecGo (n + 1) n

/-- Value read back from a digit string; inverse of `natDec`. -/
def decVal (s : Str) : Nat :=
  s.foldl (fun a c => 10 * a + (c.toNat - 48)) 0

theorem decDigit_val {k : Nat} (h : k < 10) : (decDigit k).toNat - 48 = k := by
  interval_cases k <;> rfl

theorem decVal_append_digit (s : Str) (c : Char) :
    decVal (s ++ [c]) = 10 * decVal s + (c.toNat - 48) := by
  simp [decVal, List.foldl_append]

theorem decVal_natDecGo (fuel n : Nat) (h : n < fuel) :
    decVal (natDecGo fuel n) = n := by
  induction fuel generalizing n with
  | zero => omega
  | succ fuel ih =>
      rw [natDecGo]
      by_cases h10 : n < 10
      · simp only [h10, if_true]
        simp [decVal, decDigit_val h10]
      · simp only [h10, if_false]
        rw [decVal_append_digit, ih (n / 10) (by omega),
          decDigit_val (Nat.mod_lt _ (by omega))]
        omega

theorem decVal_natDec (n : Nat) : decVal (natDec n) = n :=
  decVal_natDecGo (n + 1) n (Nat.lt_succ_self n)

theorem natDec_injective : Function.Injective natDec := by
  intro a b h
  have := decVal_natDec a
  rw [h, decVal_natDec] at this
  omega

theorem decDigit_ne_dash {k : Nat} (h : k < 10) : decDigit k ≠ '-' := by
  interval_cases k <;> decide

theorem dash_not_mem_natDecGo (fuel n : Nat) : '-' ∉ natDecGo fuel n := by
  induction fuel generalizing n with
  | zero => simp [natDecGo]
  | succ fuel ih =>
      rw [natDecGo]
      by_cases h10 : n < 10
      · simp only [h10, if_true]
        simp [(decDigit_ne_dash h10).symm]
      · simp only [h10, if_false]
        intro hmem
        rcases List.mem_append.mp hmem with h1 | h2
        · exact ih (n / 10) h1
        · exact decDigit_ne_dash (Nat.mod_lt _ (by omega)) (List.mem_singleton.mp h2).symm

theorem dash_not_mem_natDec (n : Nat) : '-' ∉ natDec n :=
  dash_not_mem_natDecGo (n + 1) n

theorem natDec_ne_nil (n : Nat) : natDec n ≠ [] := by
  rw [natDec, natDecGo]
  by_cases h : n < 10 <;> simp [h]

/-- Decimal string of an integer: JS `${i}` for integral values. -/
def intDec (i : Int) : Str :=
  if i < 0 then '-' :: natDec i.natAbs else natDec i.toNat

theorem intDec_injective : Function.Injective intDec := by
  intro a b h
  unfold intDec at h
  by_cases ha : a < 0 <;> by_cases hb : b < 0 <;> simp only [ha, hb, if_true, if_false] at h
  · injection h with h1 h2
    have := natDec_injective h2
    omega
  · exact absurd (h ▸ List.mem_cons_self '-' _) (dash_not_mem_natDec b.toNat)
  · exact absurd (h.symm ▸ List.mem_cons_self '-' _) (dash_not_mem_natDec a.toNat)
  · have := natDec_injective h
    omega

/-- Decimal `String` of a natural number, used for JS string interpolation. -/
def natStr (n : Nat) : String := String.mk (natDec n)

/-- Decimal `String` of an integer, used for JS string interpolation. -/
def intStr (i : Int) : String := String.mk (intDec i)

theorem intStr_injective : Function.Injective intStr := by
  intro a b h
  exact intDec_injective (congrArg String.data h)

/-! ## JSON values

Model of the JSON data exchanged with the LLM backends.  Objects keep their
fields in insertion order, as JS objects do for string keys. -/

inductive JsValue where
  | null
  | bool (b : Bool)
  | num (n : Int)
  | str (s : String)
  | arr (elems : List JsValue)
  | obj (fields : List (String × JsValue))

mutual

/-- Structural boolean equality of JSON values. -/
def beqVal : JsValue → JsValue → Bool
  | .null, .null => true
  | .bool a, .bool b => a == b
  | .num a, .num b => a == b
  | .str a, .str b => a == b
  | .arr a, .arr b => beqList a b
  | .obj a, .obj b => beqFields a b
  | _, _ => false

/-- Positionwise boolean equality of value lists. -/
def beqList : List JsValue → List JsValue → Bool
  | [], [] => true
  | x :: xs, y :: ys => beqVal x y && beqList xs ys
  | _, _ => false

/-- Positionwise boolean equality of field lists. -/
def beqFields : List (String × JsValue) → List (String × JsValue) → Bool
  | [], [] => true
  | (k, v) :: xs, (k', v') :: ys => k == k' && beqVal v v' && beqFields xs ys
  | _, _ => false

end

mutual

theorem beqVal_iff : ∀ a b : JsValue, beqVal a b = true ↔ a = b
  | .null, .null => by simp [beqVal]
  | .bool _, .bool _ => by simp [beqVal]
  | .num _, .num _ => by simp [beqVal]
  | .str _, .str _ => by simp [beqVal]
  | .arr x, .arr y => by simp [beqVal, beqList_iff x y]
  | .obj x, .obj y => by simp [beqVal, beqFields_iff x y]
  | .null, .bool _ | .null, .num _ | .null, .str _ | .null, .arr _ | .null, .obj _
  | .bool _, .null | .bool _, .num _ | .bool _, .str _ | .bool _, .arr _ | .bool _, .obj _
  | .num _, .null | .num _, .bool _ | .num _, .str _ | .num _, .arr _ | .num _, .obj _
  | .str _, .null | .str _, .bool _ | .str _, .num _ | .str _, .arr _ | .str _, .obj _
  | .arr _, .null | .arr _, .bool _ | .arr _, .num _ | .arr _, .str _ | .arr _, .obj _
  | .obj _, .null | .obj _, .bool _ | .obj _, .num _ | .obj _, .str _ | .obj _, .arr _ =>
      by simp [beqVal]

theorem beqList_iff : ∀ xs ys : List JsValue, beqList xs ys = true ↔ xs = ys
  | [], [] => by simp [beqList]
  | x :: xs, y :: ys => by simp [beqList, beqVal_iff x y, beqList_iff xs ys]
  | [], _ :: _ => by simp [beqList]
  | _ :: _, [] => by simp [beqList]

theorem beqFields_iff :
    ∀ xs ys : List (String × JsValue), beqFields xs ys = true ↔ xs = ys
  | [], [] => by simp [beqFields]
  | (k, v) :: xs, (k', v') :: ys => by
      simp [beqFields, beqVal_iff v v', beqFields_iff xs ys, and_assoc]
  | [], _ :: _ => by simp [beqFields]
  | _ :: _, [] => by simp [beqFields]

end

instance : DecidableEq JsValue := fun a b =>
  decidable_of_iff (beqVal a b = true) (beqVal_iff a b)

/-- Opening brace character. -/
def obrace : Char := '\x7b'

/-- Closing brace character. -/
def cbrace : Char := '\x7d'

/-- JS object property assignment `acc[k] = v`: replaces the value in place
when the key is present, appends a new field otherwise. -/
def jsAssign (fields : List (String × JsValue)) (k : String) (v : JsValue) :
    List (String × JsValue) :=
  match fields with
  | [] => [(k, v)]
  | (k', v') :: rest =>
      if k' = k then (k', v) :: rest else (k', v') :: jsAssign rest k v

/-! ## JSON.stringify with two-space indentation

Model of `JSON.stringify(value, null, 2)` over the fragment the application
produces.  The application's strings contain no quotes, backslashes or control
characters, so escaping beyond those three cases is not modelled. -/

/-- Escape one character the way `JSON.stringify` quotes it. -/
def escChar (c : Char) : Str :=
  if c = '"' then ['\\', '"']
  else if c = '\\' then ['\\', '\\']
  else if c = '\n' then ['\\', 'n']
  else if c = '\t' then ['\\', 't']
  else if c = '\r' then ['\\', 'r']
  else [c]

/-- Quoted JSON string literal for `s`. -/
def quoteStr (s : String) : Str :=
  '"' :: (s.data.flatMap escChar) ++ ['"']

/-- Indentation of `2 * d` spaces at nesting depth `d`. -/
def indentOf (d : Nat) : Str := List.replicate (2 * d) ' '

mutual

/-- Text of a JSON value at nesting depth `d`, per `JSON.stringify(v, null, 2)`. -/
def renderVal : JsValue → Nat → Str
  | .null, _ => "null".data
  | .bool true, _ => "true".data
  | .bool false, _ => "false".data
  | .num n, _ => intDec n
  | .str s, _ => quoteStr s
  | .arr [], _ => ['[', ']']
  | .arr (x :: xs), d =>
      '[' :: '\n' :: (renderElems (x :: xs) (d + 1) ++
        '\n' :: indentOf d ++ [']'])
  | .obj [], _ => [obrace, cbrace]
  | .obj (f :: fs), d =>
      obrace :: '\n' :: (renderFields (f :: fs) (d + 1) ++
        '\n' :: indentOf d ++ [cbrace])

/-- Array elements, each on its own indented line, comma separated. -/
def renderElems : List JsValue → Nat → Str
  | [], _ => []
  | [x], d => indentOf d ++ renderVal x d
  | x :: y :: xs, d =>
      indentOf d ++ renderVal x d ++ ',' :: '\n' :: renderElems (y :: xs) d

/-- Object fields, each on its own indented line, comma separated. -/
def renderFields : List (String × JsValue) → Nat → Str
  | [], _ => []
  | [(k, v)], d => indentOf d ++ quoteStr k ++ ':' :: ' ' :: renderVal v d
  | (k, v) :: f :: fs, d =>
      indentOf d ++ quoteStr k ++ ':' :: ' ' :: renderVal v d ++
        ',' :: '\n' :: renderFields (f :: fs) d

end

/-- Result of `JSON.stringify(v, null, 2)` as a `String`. -/
def stringify2 (v : JsValue) : String := String.mk (renderVal v 0)

/-! ## JSON.parse

Fuel-driven recursive-descent reader for the same fragment: top-level and
nested objects, arrays, strings with the escapes of `escChar`, booleans,
null, and integer numbers.  `JSON.parse` additionally accepts fractional and
exponent numbers; the reader rejects those, which only narrows the inputs on
which the parse succeeds — every payload in this application's contracts is
integral. -/

/-- Whitespace skipped between JSON tokens. -/
def isJsonWs (c : Char) : Bool :=
  c = ' ' || c = '\n' || c = '\t' || c = '\r'

/-- Drop leading JSON whitespace. -/
def skipWs (s : Str) : Str := s.dropWhile isJsonWs

/-- Decode one escape character of a JSON string literal. -/
def escDecode (e : Char) : Option Char :=
  match e with
  | '"' => some '"'
  | '\\' => some '\\'
  | 'n' => some '\n'
  | 't' => some '\t'
  | 'r' => some '\r'
  | _ => none

/-- Read a string body up to the closing quote, decoding the escapes of
`escChar`. -/
def readStr : Str → Option (String × Str)
  | [] => none
  | '"' :: rest => some ("", rest)
  | '\\' :: e :: rest =>
      match escDecode e with
      | some c => (readStr rest).map fun (s, r) => (String.mk (c :: s.data), r)
      | none => none
  | c :: rest =>
      if c = '"' ∨ c = '\\' then none
      else (readStr rest).map fun (s, r) => (String.mk (c :: s.data), r)

/-- Read an integer numeric literal, rejecting fraction and exponent parts. -/
def readNum (s : Str) : Option (Int × Str) :=
  let (neg, body) : Bool × Str :=
    match s with
    | '-' :: rest => (true, rest)
    | _ => (false, s)
  let ds := body.takeWhile Char.isDigit
  let rest := body.dropWhile Char.isDigit
  if ds = [] then none
  else match rest with
    | '.' :: _ => none
    | 'e' :: _ => none
    | 'E' :: _ => none
    | _ => some (if neg then -(decVal ds : Int) else (decVal ds : Int), rest)

mutual

/-- Read one JSON value, leading whitespace allowed. -/
def readVal : Nat → Str → Option (JsValue × Str)
  | 0, _ => none
  | fuel + 1, s =>
      match skipWs s with
      | 'n' :: 'u' :: 'l' :: 'l' :: rest => some (.null, rest)
      | 't' :: 'r' :: 'u' :: 'e' :: rest => some (.bool true, rest)
      | 'f' :: 'a' :: 'l' :: 's' :: 'e' :: rest => some (.bool false, rest)
      | '"' :: rest => (readStr rest).map fun (str, r) => (.str str, r)
      | '[' :: rest =>
          (match skipWs rest with
           | ']' :: r => some (.arr [], r)
           | _ => (readElems fuel rest).map fun (xs, r) => (.arr xs, r))
      | c :: rest =>
          if c = obrace then
            match skipWs rest with
            | d :: r =>
                if d = cbrace then some (.obj [], r)
                else (readMembers fuel (d :: r)).map fun (fs, r') => (.obj fs, r')
            | [] => none
          else readNum (c :: rest) |>.map fun (n, r) => (.num n, r)
      | [] => none

/-- Read `value (, value)* ]`, the tail of a non-empty array. -/
def readElems : Nat → Str → Option (List JsValue × Str)
  | 0, _ => none
  | fuel + 1, s =>
      (readVal fuel s).bind fun (v, r) =>
        match skipWs r with
        | ',' :: r2 => (readElems fuel r2).map fun (vs, r3) => (v :: vs, r3)
        | ']' :: r2 => some ([v], r2)
        | _ => none

/-- Read `"key" : value (, "key" : value)* close-brace`, the tail of a
non-empty object. -/
def readMembers : Nat → Str → Option (List (String × JsValue) × Str)
  | 0, _ => none
  | fuel + 1, s =>
      match skipWs s with
      | '"' :: rest =>
          (readStr rest).bind fun (k, r) =>
            match skipWs r with
            | ':' :: r2 =>
                (readVal fuel r2).bind fun (v, r3) =>
                  match skipWs r3 with
                  | ',' :: r4 =>
                      (readMembers fuel r4).map fun (fs, r5) => ((k, v) :: fs, r5)
                  | d :: r4 =>
                      if d = cbrace then some ([(k, v)], r4) else none
                  | [] => none
            | _ => none
      | _ => none

end

/-- Model of `JSON.parse`: reads one value and requires only whitespace after
it. -/
def jsonParse (s : Str) : Option JsValue :=
  match readVal (2 * s.length + 8) s with
  | some (v, rest) => if skipWs rest = [] then some v else none
  | none => none



/-! ## Response Interpreter

Two backend routes parse the raw LLM text into `parsedData`.  The RAG route
(`src/app/api/finance/route.ts`, lines 66-86) first looks for the greedy
regex match of a brace substring and strict-parses the whole text only when
no such substring exists; the direct-upload route
(`src/app/api/finance/openai/route.ts`, lines 117-137) strict-parses first
and falls back to the brace substring. -/

/-- Greedy match of the regex from the first open brace to the last close
brace of the text (`/{ ... }/` with anything in between); `none` when the
text has no open brace followed by a later close brace. -/
def extractBrace (s : Str) : Option Str :=
  match s.dropWhile (fun c => c != obrace) with
  | [] => none
  | s₁ =>
      match s₁.reverse.dropWhile (fun c => c != cbrace) with
      | [] => none
      | r => some r.reverse

/-- Outcome of a route's response-parsing step: either a parsed JSON value
or the recoverable extraction-error sentinel record carrying the message and
the `raw_response` payload. -/
inductive ParsedData where
  | parsed (v : JsValue)
  | extractionError (msg : String) (rawResponse : Str)

instance : DecidableEq ParsedData := fun a b =>
  match a, b with
  | .parsed x, .parsed y =>
      if h : x = y then isTrue (by rw [h])
      else isFalse (by intro hh; cases hh; exact h rfl)
  | .extractionError m r, .extractionError m' r' =>
      if h : m = m' ∧ r = r' then isTrue (by rw [h.1, h.2])
      else isFalse (by intro hh; cases hh; exact h ⟨rfl, rfl⟩)
  | .parsed _, .extractionError _ _ => isFalse (by intro hh; cases hh)
  | .extractionError _ _, .parsed _ => isFalse (by intro hh; cases hh)

/-- Sentinel message of the RAG chat route. -/
def ragErrMsg : String := "Failed to parse AnythingLLM response"

/-- Sentinel message of the direct-upload route. -/
def openaiErrMsg : String := "Failed to parse Responses API output"

/-- Response interpretation of the RAG chat route: when the regex matches,
parse the matched substring (the sentinel on failure, with the full raw text
as `raw_response`); otherwise strict-parse the whole text. -/
def ragInterpret (raw : Str) : ParsedData :=
  match extractBrace raw with
  | some m =>
      match jsonParse m with
      | some v => .parsed v
      | none => .extractionError ragErrMsg raw
  | none =>
      match jsonParse raw with
      | some v => .parsed v
      | none => .extractionError ragErrMsg raw

/-- Response interpretation of the direct-upload route: strict-parse the
whole text, fall back to the regex substring, and degrade to the sentinel
whose `raw_response` is `substring(0, 1000)` of the raw text. -/
def openaiInterpret (raw : Str) : ParsedData :=
  match jsonParse raw with
  | some v => .parsed v
  | none =>
      match extractBrace raw with
      | some m =>
          match jsonParse m with
          | some v => .parsed v
          | none => .extractionError openaiErrMsg (raw.take 1000)
      | none => .extractionError openaiErrMsg (raw.take 1000)


/-! ## Claims C1 and C2: the two routes' parse order and sentinel shape -/

/-- C1 (amended): on every raw text for which both the strict parse and the
lenient brace-substring extraction fail, both backend paths return the
recoverable extraction-error sentinel rather than a parsed value.  The
`raw_response` field holds the first at-most-1000 characters of the raw text
on the direct-upload path, but the full raw text on the RAG chat path. -/
theorem claim_C1_sentinel (raw : Str)
    (hstrict : jsonParse raw = none)
    (hlenient : ∀ m, extractBrace raw = some m → jsonParse m = none) :
    ragInterpret raw = .extractionError ragErrMsg raw ∧
    openaiInterpret raw = .extractionError openaiErrMsg (raw.take 1000) ∧
    (raw.take 1000).length ≤ 1000 := by
  refine ⟨?_, ?_, ?_⟩
  · unfold ragInterpret
    cases hEB : extractBrace raw with
    | none => simp [hEB, hstrict]
    | some m => simp [hEB, hlenient m hEB]
  · unfold openaiInterpret
    cases hEB : extractBrace raw with
    | none => simp [hEB, hstrict]
    | some m => simp [hEB, hstrict, hlenient m hEB]
  · simp

theorem claim_C1_sentinel_witness :
    ragInterpret "no json here at all".data =
      .extractionError ragErrMsg "no json here at all".data ∧
    openaiInterpret "no json here at all".data =
      .extractionError openaiErrMsg ("no json here at all".data.take 1000) ∧
    ("no json here at all".data.take 1000).length ≤ 1000 :=
  claim_C1_sentinel "no json here at all".data (by decide)
    (fun m h => by rw [show extractBrace "no json here at all".data = none from by decide] at h; cases h)

/-- Raw text of 1001 characters containing no JSON at all. -/
def longGarbage : Str := List.replicate 1001 'x'

set_option maxRecDepth 10000 in
/-- C1 (counterexample): on the RAG chat path the sentinel's `raw_response`
is the whole raw text, so a 1001-character garbage input yields a sentinel
whose `raw_response` is longer than 1000 characters, refuting the claim that
both backend paths truncate to the first 1000 characters. -/
theorem claim_C1_counterexample :
    ragInterpret longGarbage = .extractionError ragErrMsg longGarbage ∧
    1000 < longGarbage.length := by
  exact ⟨by decide, by simp [longGarbage]⟩

/-- C2 (amended): the direct-upload route strict-parses the whole text first
and only on failure parses the greedy first-open-brace-to-last-close-brace
substring; the RAG chat route does the opposite — whenever the brace
substring exists it is the one parsed with no strict-parse fallback (when
its parse fails the route answers the sentinel even if the whole text would
strict-parse), and the whole text is strict-parsed only when no brace
substring exists. -/
theorem claim_C2_parse_order :
    (∀ raw v, jsonParse raw = some v → openaiInterpret raw = .parsed v) ∧
    (∀ raw m v, jsonParse raw = none → extractBrace raw = some m →
        jsonParse m = some v → openaiInterpret raw = .parsed v) ∧
    (∀ raw m v, extractBrace raw = some m → jsonParse m = some v →
        ragInterpret raw = .parsed v) ∧
    (∀ raw v, extractBrace raw = none → jsonParse raw = some v →
        ragInterpret raw = .parsed v) ∧
    (∀ raw m, extractBrace raw = some m → jsonParse m = none →
        ragInterpret raw = .extractionError ragErrMsg raw) := by
  refine ⟨fun raw v h => ?_, fun raw m v h1 h2 h3 => ?_,
    fun raw m v h1 h2 => ?_, fun raw v h1 h2 => ?_, fun raw m h1 h2 => ?_⟩
  · unfold openaiInterpret; simp [h]
  · unfold openaiInterpret; simp [h1, h2, h3]
  · unfold ragInterpret; simp [h1, h2]
  · unfold ragInterpret; simp [h1, h2]
  · unfold ragInterpret; simp [h1, h2]

theorem claim_C2_parse_order_witness :
    openaiInterpret "\x7b\"a\":1\x7d".data = .parsed (.obj [("a", .num 1)]) ∧
    ragInterpret "x \x7b\"b\":2\x7d y".data = .parsed (.obj [("b", .num 2)]) ∧
    jsonParse "[\"\x7b\",\"\x7d\"]".data = some (.arr [.str "\x7b", .str "\x7d"]) ∧
    ragInterpret "[\"\x7b\",\"\x7d\"]".data =
      .extractionError ragErrMsg "[\"\x7b\",\"\x7d\"]".data :=
  ⟨claim_C2_parse_order.1 _ _ (by decide),
   claim_C2_parse_order.2.2.1 _ "\x7b\"b\":2\x7d".data _ (by decide) (by decide),
   by decide,
   claim_C2_parse_order.2.2.2.2 _ "\x7b\",\"\x7d".data (by decide) (by decide)⟩

/-- Raw text that is a well-formed JSON array wrapping one object. -/
def arrayRaw : Str := "[\x7b\"a\":1\x7d]".data

/-- C2 (counterexample): on the RAG chat path, for the raw text `[{"a":1}]`
the strict whole-text parse succeeds with the array, yet the route returns
the inner object extracted by the greedy brace regex — so that path does not
attempt the strict parse first as claimed. -/
theorem claim_C2_counterexample :
    jsonParse arrayRaw = some (.arr [.obj [("a", .num 1)]]) ∧
    ragInterpret arrayRaw = .parsed (.obj [("a", .num 1)]) ∧
    JsValue.arr [.obj [("a", .num 1)]] ≠ JsValue.obj [("a", .num 1)] :=
  ⟨by decide, by decide, by decide⟩


/-! ## Prompt Generator (`src/lib/financePromptGenerator.ts`)

The generators are embedded as functions of the figure list resolved from
the request override or the loaded configuration, of the company name and
direct-upload flag, and of an explicit `now : Int` standing for the wall
clock year `new Date().getFullYear()`.  The single-period generator's source
contains no clock read, so its embedding ignores `now`. -/

/-- Figure fields consumed by the prompt generators. -/
structure FigureDefinition where
  id : String
  name : String
  description : String
deriving DecidableEq

/-- One bullet line of the figures list:
`- name → "id" (description)`. -/
def figureLine (f : FigureDefinition) : String :=
  "- " ++ f.name ++ " → \"" ++ f.id ++ "\" (" ++ f.description ++ ")"

/-- Figure bullet list joined with newlines. -/
def figuresList (figs : List FigureDefinition) : String :=
  String.intercalate "\n" (figs.map figureLine)

/-- Example entry of the single-period schema. -/
def singleEntry : JsValue :=
  .obj [("value", .num 15500000), ("currency", .str "currency code"),
        ("period", .str "time period")]

/-- Fields of `financial_data` in the single-period schema, built by the
source's `reduce` with property assignment. -/
def financialDataSingle (figs : List FigureDefinition) :
    List (String × JsValue) :=
  figs.foldl (fun acc f => jsAssign acc f.id singleEntry) []

/-- Example JSON object embedded in the single-period prompt. -/
def jsonStructure (figs : List FigureDefinition) : JsValue :=
  .obj [("company_name", .str "Company Name"),
        ("report_period", .str "2024 or Q4 2024 etc"),
        ("currency", .str "EUR or USD etc"),
        ("financial_data", .obj (financialDataSingle figs))]

/-- Year labels of the timeseries schema: 3 past years, the current year,
and 4 future years, as decimal strings. -/
def yearLabels (now : Int) : List String :=
  [intStr (now - 3), intStr (now - 2), intStr (now - 1), intStr now,
   intStr (now + 1), intStr (now + 2), intStr (now + 3), intStr (now + 4)]

/-- Example per-year entry of the timeseries schema. -/
def yearEntry : JsValue :=
  .obj [("value", .null), ("currency", .str "currency code"),
        ("note", .str "Historical/Projected/Not found in documents")]

/-- Fields of a figure's `years` sub-map, built by the source's `reduce`
with property assignment over the year labels. -/
def yearsFields (now : Int) : List (String × JsValue) :=
  (yearLabels now).foldl (fun acc y => jsAssign acc y yearEntry) []

/-- Example per-figure entry of the timeseries schema. -/
def tsEntry (f : FigureDefinition) (now : Int) : JsValue :=
  .obj [("metric_name", .str f.name), ("years", .obj (yearsFields now))]

/-- Fields of `financial_data` in the timeseries schema. -/
def financialDataTS (figs : List FigureDefinition) (now : Int) :
    List (String × JsValue) :=
  figs.foldl (fun acc f => jsAssign acc f.id (tsEntry f now)) []

/-- Example JSON object embedded in the timeseries prompt. -/
def timeSeriesStructure (figs : List FigureDefinition) (now : Int) : JsValue :=
  .obj [("company_name", .str "Company Name"),
        ("currency", .str "EUR or USD etc"),
        ("analysis_type", .str "timeseries"),
        ("financial_data", .obj (financialDataTS figs now))]

/-- First-occurrence replacement on character lists, per JS
`String.prototype.replace` with a string pattern. -/
def replaceFirstL (pat rep : Str) : Str → Str
  | [] => []
  | c :: rest =>
      if pat.isPrefixOf (c :: rest) then rep ++ (c :: rest).drop pat.length
      else c :: replaceFirstL pat rep rest

/-- First-occurrence replacement on strings. -/
def replaceFirst (s pat rep : String) : String :=
  String.mk (replaceFirstL pat.data rep.data s.data)

/-- Placeholder substituted with the company name. -/
def companyNamePat : String := "\x7bcompany_name\x7d"

/-- Lead sentence of the single-period prompt, by upload flag. -/
def singleBase (isOpenAI : Bool) : String :=
  if isOpenAI then
    "You are a financial data extraction expert. Your task is to analyze PDF documents and extract key financial figures."
  else
    "Please analyze all the uploaded PDF documents for \x7bcompany_name\x7d and extract the key financial data."

/-- Part of the single-period prompt before the embedded example JSON. -/
def singlePromptPre (figs : List FigureDefinition) (isOpenAI : Bool) : String :=
  singleBase isOpenAI ++
  "\n\nExtract the following financial data from company reports and return it as JSON:\n" ++
  figuresList figs ++
  "\n\nCRITICAL VALUE CONVERSION GUIDELINES:\n1. Convert ALL values to absolute integers (no decimals, no abbreviations, no strings)\n2. Handle abbreviations and scaling meticulously:\n   - M, Mill, million = multiply by 1,000,000 (e.g., \"5.3M\" = 5300000)\n   - K, k, thousand, \x27000 = multiply by 1,000 (e.g., \"150k\" = 150000)\n   - B, billion = multiply by 1,000,000,000 (e.g., \"2.5B\" = 2500000000)\n3. Detect document scaling statements:\n   - \"All figures in thousands\" or \"(000s)\" = multiply ALL values by 1,000\n   - \"All figures in millions\" = multiply ALL values by 1,000,000\n   - \"Values shown in EUR thousand\" = multiply by 1,000\n4. Conversion examples:\n   - \"Revenue: 15.5M EUR\" = value: 15500000\n   - \"Costs: 450k\" = value: 450000\n   - \"Profit: 2,500\" when doc says \"in thousands\" = value: 2500000\n   - \"25.3\" when doc states \"all figures in millions\" = value: 25300000\n   - \"1,250\" with no scaling → value: 1250\n5. Focus on the most recent or annual figures when multiple periods are present\n6. Look for consolidated figures rather than segment-specific data\n7. If exact figures aren\x27t found, set the value to null (not string)\n\nReturn ONLY valid JSON in this exact format:\n"

/-- Part of the single-period prompt after the embedded example JSON. -/
def singlePromptTail : String :=
  "\n\nCRITICAL: All value fields must be absolute integers (numbers without quotes). Use null if not found."

/-- Body of the single-period prompt before company-name substitution. -/
def singlePromptBody (figs : List FigureDefinition) (isOpenAI : Bool) : String :=
  singlePromptPre figs isOpenAI ++ stringify2 (jsonStructure figs) ++ singlePromptTail

/-- Lead sentence of the timeseries prompt, by upload flag. -/
def tsBase (isOpenAI : Bool) : String :=
  if isOpenAI then
    "You are a financial data extraction expert specialized in time series analysis. Your task is to analyze PDF documents and extract historical and projected financial figures."
  else
    "Please analyze all the uploaded PDF documents for \x7bcompany_name\x7d and extract time series financial data spanning 8 years."

/-- Part of the timeseries prompt before the embedded example JSON. -/
def tsPromptPre (figs : List FigureDefinition) (isOpenAI : Bool) (now : Int) :
    String :=
  tsBase isOpenAI ++
  "\n\nExtract the following financial data from company reports for an 8-year period (3 years historical + current year + 4 years projected) and return it as JSON:\n" ++
  figuresList figs ++
  "\n\nTIME SERIES ANALYSIS REQUIREMENTS:\n1. Extract data for years " ++
  String.intercalate ", " (yearLabels now) ++
  "\n2. For each metric, find values for as many years as are mentioned in the documents\n3. Clearly distinguish between:\n   - Historical data (actual results from past years)\n   - Current year data\n   - Projected/forecasted data (future years)\n4. ONLY extract data that is EXPLICITLY mentioned in the documents\n5. DO NOT hallucinate, estimate, or calculate values not present in the documents\n6. If a year\x27s data is not found in any document, set value to null\n7. Add a note field indicating: \"Historical\", \"Current\", \"Projected\", or \"Not found in documents\"\n\nCRITICAL VALUE CONVERSION GUIDELINES:\n1. Convert ALL values to absolute integers (no decimals, no abbreviations, no strings)\n2. Handle abbreviations and scaling meticulously:\n   - M, Mill, million = multiply by 1,000,000 (e.g., \"5.3M\" = 5300000)\n   - K, k, thousand, \x27000 = multiply by 1,000 (e.g., \"150k\" = 150000)\n   - B, billion = multiply by 1,000,000,000 (e.g., \"2.5B\" = 2500000000)\n3. Detect document scaling statements:\n   - \"All figures in thousands\" or \"(000s)\" = multiply ALL values by 1,000\n   - \"All figures in millions\" = multiply ALL values by 1,000,000\n   - \"Values shown in EUR thousand\" = multiply by 1,000\n4. Look for historical tables, trend analyses, and forecast sections\n5. Look for consolidated figures rather than segment-specific data\n6. If exact figures aren\x27t found for a specific year, set value to null (not string)\n\nCRITICAL DATA INTEGRITY RULES:\n- NEVER fabricate or estimate data\n- NEVER extrapolate trends to fill missing years\n- NEVER calculate values based on growth rates unless explicitly shown\n- ONLY include values that are directly stated in the documents\n- Use null for any year where data is not explicitly provided\n\nReturn ONLY valid JSON in this exact format:\n"

/-- Part of the timeseries prompt after the embedded example JSON. -/
def tsPromptTail : String :=
  "\n\nCRITICAL: All value fields must be absolute integers (numbers without quotes) or null if not found. The note field must accurately reflect whether the data is historical, current, projected, or not found."

/-- Body of the timeseries prompt before company-name substitution. -/
def tsPromptBody (figs : List FigureDefinition) (isOpenAI : Bool) (now : Int) :
    String :=
  tsPromptPre figs isOpenAI now ++ stringify2 (timeSeriesStructure figs now) ++
    tsPromptTail

/-- Figure list resolved by the generators: the request override when it is
present and non-empty, the loaded configuration otherwise. -/
def resolveFigures (override : Option (List FigureDefinition))
    (loaded : List FigureDefinition) : List FigureDefinition :=
  match override with
  | some l => if l.length > 0 then l else loaded
  | none => loaded

/-- Error message thrown when no figure is configured. -/
def noFiguresMsg : String := "No analyzable figures configured"

/-- Model of `generateFinancePrompt`: resolves the figure list, fails when
it is empty, otherwise substitutes the company name into the assembled
prompt body.  `now` is the ambient wall-clock year; this generator never
reads it. -/
def generateFinancePrompt (companyName : String) (isOpenAI : Bool)
    (override : Option (List FigureDefinition))
    (loaded : List FigureDefinition) (_now : Int) : Except String String :=
  let figures := resolveFigures override loaded
  if figures.length = 0 then .error noFiguresMsg
  else .ok (replaceFirst (singlePromptBody figures isOpenAI) companyNamePat companyName)

/-- Model of `generateTimeSeriesFinancePrompt`; `now` is the wall-clock
year read from `new Date().getFullYear()`. -/
def generateTimeSeriesFinancePrompt (companyName : String) (isOpenAI : Bool)
    (override : Option (List FigureDefinition))
    (loaded : List FigureDefinition) (now : Int) : Except String String :=
  let figures := resolveFigures override loaded
  if figures.length = 0 then .error noFiguresMsg
  else .ok (replaceFirst (tsPromptBody figures isOpenAI now) companyNamePat companyName)

/-- Prompt handed to `anythingLLM.sendMessage` by the finance POST route:
the generator runs before the network call, so no message is sent when
generation fails. -/
def financeRouteSent (companyName : String) (analysisType : String)
    (override : Option (List FigureDefinition))
    (loaded : List FigureDefinition) (now : Int) : Option String :=
  (if analysisType = "timeseries"
   then generateTimeSeriesFinancePrompt companyName false override loaded now
   else generateFinancePrompt companyName false override loaded now).toOption


/-! ## Key-set lemmas for reduce-built example objects -/

/-- Keys of a field list, in order. -/
def fieldKeys (fs : List (String × JsValue)) : List String := fs.map Prod.fst

theorem fieldKeys_nil : fieldKeys [] = [] := rfl

theorem fieldKeys_cons (k : String) (v : JsValue) (fs : List (String × JsValue)) :
    fieldKeys ((k, v) :: fs) = k :: fieldKeys fs := rfl

theorem fieldKeys_jsAssign_of_mem {fs : List (String × JsValue)} {k : String}
    (v : JsValue) (h : k ∈ fieldKeys fs) :
    fieldKeys (jsAssign fs k v) = fieldKeys fs := by
  induction fs with
  | nil => cases h
  | cons p rest ih =>
      obtain ⟨k', v'⟩ := p
      by_cases hk : k' = k
      · simp [jsAssign, hk, fieldKeys_cons]
      · have hmem : k ∈ fieldKeys rest := by
          rw [fieldKeys_cons] at h
          rcases List.mem_cons.mp h with h1 | h1
          · exact absurd h1.symm hk
          · exact h1
        simp [jsAssign, hk, fieldKeys_cons, ih hmem]

theorem fieldKeys_jsAssign_of_not_mem {fs : List (String × JsValue)} {k : String}
    (v : JsValue) (h : k ∉ fieldKeys fs) :
    fieldKeys (jsAssign fs k v) = fieldKeys fs ++ [k] := by
  induction fs with
  | nil => simp [jsAssign, fieldKeys_nil, fieldKeys_cons]
  | cons p rest ih =>
      obtain ⟨k', v'⟩ := p
      rw [fieldKeys_cons] at h
      have hk : k' ≠ k := fun he => h (he ▸ List.mem_cons_self k' _)
      have hrest : k ∉ fieldKeys rest := fun hm => h (List.mem_cons_of_mem _ hm)
      simp [jsAssign, hk, fieldKeys_cons, ih hrest]

theorem mem_fieldKeys_jsAssign {fs : List (String × JsValue)} {k a : String}
    {v : JsValue} : a ∈ fieldKeys (jsAssign fs k v) ↔ a ∈ fieldKeys fs ∨ a = k := by
  by_cases h : k ∈ fieldKeys fs
  · rw [fieldKeys_jsAssign_of_mem v h]
    constructor
    · exact Or.inl
    · rintro (h1 | rfl) <;> [exact h1; exact h]
  · rw [fieldKeys_jsAssign_of_not_mem v h]
    simp

theorem nodup_fieldKeys_jsAssign {fs : List (String × JsValue)} {k : String}
    (v : JsValue) (h : (fieldKeys fs).Nodup) :
    (fieldKeys (jsAssign fs k v)).Nodup := by
  by_cases hm : k ∈ fieldKeys fs
  · rwa [fieldKeys_jsAssign_of_mem v hm]
  · rw [fieldKeys_jsAssign_of_not_mem v hm]
    simp [List.nodup_append, h, hm]

theorem mem_jsAssign {fs : List (String × JsValue)} {k : String} {v : JsValue}
    {p : String × JsValue} (h : p ∈ jsAssign fs k v) : p ∈ fs ∨ p.2 = v := by
  induction fs with
  | nil => simp [jsAssign] at h; simp [h]
  | cons q rest ih =>
      obtain ⟨k', v'⟩ := q
      by_cases hk : k' = k
      · simp [jsAssign, hk] at h
        rcases h with rfl | h1
        · right; rfl
        · left; simp [h1]
      · simp [jsAssign, hk] at h
        rcases h with rfl | h1
        · left; simp
        · rcases ih h1 with h2 | h2
          · left; simp [h2]
          · right; exact h2

/-- Generic form of the source's `reduce((acc, x) => (acc[key x] = g x, acc), init)`. -/
def foldAssign {α : Type} (key : α → String) (g : α → JsValue)
    (l : List α) (acc : List (String × JsValue)) : List (String × JsValue) :=
  l.foldl (fun a x => jsAssign a (key x) (g x)) acc

theorem nodup_fieldKeys_foldAssign {α : Type} (key : α → String)
    (g : α → JsValue) (l : List α) (acc : List (String × JsValue))
    (h : (fieldKeys acc).Nodup) :
    (fieldKeys (foldAssign key g l acc)).Nodup := by
  induction l generalizing acc with
  | nil => exact h
  | cons x rest ih => exact ih _ (nodup_fieldKeys_jsAssign _ h)

theorem mem_fieldKeys_foldAssign {α : Type} (key : α → String)
    (g : α → JsValue) (l : List α) (acc : List (String × JsValue)) (a : String) :
    a ∈ fieldKeys (foldAssign key g l acc) ↔
      a ∈ fieldKeys acc ∨ a ∈ l.map key := by
  induction l generalizing acc with
  | nil => simp [foldAssign]
  | cons x rest ih =>
      show a ∈ fieldKeys (foldAssign key g rest (jsAssign acc (key x) (g x))) ↔ _
      rw [ih]
      simp [mem_fieldKeys_jsAssign]
      tauto

theorem toFinset_fieldKeys_foldAssign {α : Type} (key : α → String)
    (g : α → JsValue) (l : List α) (acc : List (String × JsValue)) :
    (fieldKeys (foldAssign key g l acc)).toFinset =
      (fieldKeys acc).toFinset ∪ (l.map key).toFinset := by
  ext a
  simp [mem_fieldKeys_foldAssign]

theorem fieldKeys_foldAssign_of_nodup {α : Type} (key : α → String)
    (g : α → JsValue) (l : List α) (acc : List (String × JsValue))
    (hn : (l.map key).Nodup) (hd : ∀ x ∈ l, key x ∉ fieldKeys acc) :
    fieldKeys (foldAssign key g l acc) = fieldKeys acc ++ l.map key := by
  induction l generalizing acc with
  | nil => simp [foldAssign]
  | cons x rest ih =>
      show fieldKeys (foldAssign key g rest (jsAssign acc (key x) (g x))) = _
      have hd2 : ∀ y ∈ rest, key y ∉ fieldKeys (jsAssign acc (key x) (g x)) := by
        intro y hy
        rw [mem_fieldKeys_jsAssign]
        rintro (h1 | h1)
        · exact hd y (List.mem_cons_of_mem x hy) h1
        · exact (List.nodup_cons.mp (by simpa using hn)).1
            (h1 ▸ List.mem_map_of_mem key hy)
      rw [ih _ (List.Nodup.of_cons (by simpa using hn)) hd2,
        fieldKeys_jsAssign_of_not_mem _ (hd x (List.mem_cons_self x rest))]
      simp

theorem mem_foldAssign {α : Type} (key : α → String) (g : α → JsValue)
    (l : List α) (acc : List (String × JsValue)) (p : String × JsValue)
    (h : p ∈ foldAssign key g l acc) : p ∈ acc ∨ ∃ x ∈ l, p.2 = g x := by
  induction l generalizing acc with
  | nil => exact Or.inl h
  | cons x rest ih =>
      rcases ih _ h with h1 | h1
      · rcases mem_jsAssign h1 with h2 | h2
        · exact Or.inl h2
        · exact Or.inr ⟨x, List.mem_cons_self x rest, h2⟩
      · obtain ⟨y, hy, he⟩ := h1
        exact Or.inr ⟨y, List.mem_cons_of_mem x hy, he⟩

theorem financialDataSingle_eq (figs : List FigureDefinition) :
    financialDataSingle figs = foldAssign (·.id) (fun _ => singleEntry) figs [] := rfl

theorem financialDataTS_eq (figs : List FigureDefinition) (now : Int) :
    financialDataTS figs now =
      foldAssign (·.id) (fun f => tsEntry f now) figs [] := rfl

theorem yearsFields_eq (now : Int) :
    yearsFields now = foldAssign id (fun _ => yearEntry) (yearLabels now) [] := rfl


/-! ## Claims C3, C4, C5, C9: the prompt generators -/

/-- Concrete figure list used by witnesses. -/
def demoFigs : List FigureDefinition :=
  [⟨"revenue", "Revenue", "Total revenue"⟩, ⟨"profit", "Profit", "Net profit"⟩]

/-- C3: for every non-empty figure list, the example JSON object embedded in
the generated prompt (for both the single-period and the timeseries mode)
has a `financial_data` map whose key set equals the set of input figure ids
with exactly one object-key occurrence per id, and both generators succeed,
embedding that example verbatim into the prompt between fixed surrounding
text. -/
theorem claim_C3_schema_roundtrip (figs : List FigureDefinition)
    (h : figs ≠ []) :
    (fieldKeys (financialDataSingle figs)).toFinset =
      (figs.map (·.id)).toFinset ∧
    (fieldKeys (financialDataSingle figs)).Nodup ∧
    (∀ now, (fieldKeys (financialDataTS figs now)).toFinset =
        (figs.map (·.id)).toFinset ∧
      (fieldKeys (financialDataTS figs now)).Nodup) ∧
    (∀ c iso ld now, generateFinancePrompt c iso (some figs) ld now =
      .ok (replaceFirst (singlePromptBody figs iso) companyNamePat c)) ∧
    (∀ c iso ld now, generateTimeSeriesFinancePrompt c iso (some figs) ld now =
      .ok (replaceFirst (tsPromptBody figs iso now) companyNamePat c)) ∧
    (∀ iso, ∃ pre post, singlePromptBody figs iso =
      pre ++ stringify2 (jsonStructure figs) ++ post) ∧
    (∀ iso now, ∃ pre post, tsPromptBody figs iso now =
      pre ++ stringify2 (timeSeriesStructure figs now) ++ post) := by
  have hlen : 0 < figs.length := List.length_pos.mpr h
  have hres : ∀ ld, resolveFigures (some figs) ld = figs := by
    intro ld; simp [resolveFigures, hlen]
  refine ⟨?_, ?_, fun now => ⟨?_, ?_⟩, fun c iso ld now => ?_,
    fun c iso ld now => ?_, fun iso => ⟨_, _, rfl⟩, fun iso now => ⟨_, _, rfl⟩⟩
  · rw [financialDataSingle_eq, toFinset_fieldKeys_foldAssign]
    simp [fieldKeys_nil]
  · rw [financialDataSingle_eq]
    exact nodup_fieldKeys_foldAssign _ _ _ _ (by simp [fieldKeys_nil])
  · rw [financialDataTS_eq, toFinset_fieldKeys_foldAssign]
    simp [fieldKeys_nil]
  · rw [financialDataTS_eq]
    exact nodup_fieldKeys_foldAssign _ _ _ _ (by simp [fieldKeys_nil])
  · unfold generateFinancePrompt
    rw [hres ld]
    simp [Nat.pos_iff_ne_zero.mp hlen]
  · unfold generateTimeSeriesFinancePrompt
    rw [hres ld]
    simp [Nat.pos_iff_ne_zero.mp hlen]

theorem claim_C3_schema_roundtrip_witness :
    (fieldKeys (financialDataSingle demoFigs)).toFinset =
      (demoFigs.map (·.id)).toFinset ∧
    (fieldKeys (financialDataSingle demoFigs)).Nodup ∧
    generateFinancePrompt "Acme" false (some demoFigs) [] 2025 =
      .ok (replaceFirst (singlePromptBody demoFigs false) companyNamePat "Acme") := by
  have h := claim_C3_schema_roundtrip demoFigs (by decide)
  exact ⟨h.1, h.2.1, h.2.2.2.1 "Acme" false [] 2025⟩

/-- C4: for every company name and both schema-driven generators, an empty
resolved figure list makes the generator fail with the configuration error
(no prompt string is produced), and the finance route then sends nothing to
the backend. -/
theorem claim_C4_empty_figures (c : String) (iso : Bool) (atype : String)
    (ov : Option (List FigureDefinition)) (ld : List FigureDefinition)
    (now : Int) (h : resolveFigures ov ld = []) :
    generateFinancePrompt c iso ov ld now = .error noFiguresMsg ∧
    generateTimeSeriesFinancePrompt c iso ov ld now = .error noFiguresMsg ∧
    financeRouteSent c atype ov ld now = none := by
  have h0 : (resolveFigures ov ld).length = 0 := by rw [h]; rfl
  refine ⟨?_, ?_, ?_⟩
  · unfold generateFinancePrompt
    simp [h0]
  · unfold generateTimeSeriesFinancePrompt
    simp [h0]
  · unfold financeRouteSent generateFinancePrompt generateTimeSeriesFinancePrompt
    by_cases ha : atype = "timeseries" <;> simp [ha, h0, Except.toOption]

theorem claim_C4_empty_figures_witness :
    generateFinancePrompt "Acme" false none [] 2025 = .error noFiguresMsg ∧
    generateTimeSeriesFinancePrompt "Acme" false none [] 2025 =
      .error noFiguresMsg ∧
    financeRouteSent "Acme" "timeseries" none [] 2025 = none :=
  claim_C4_empty_figures "Acme" false "timeseries" none [] 2025 (by decide)

/-- Years sub-map of a timeseries schema entry. -/
def yearsOf (v : JsValue) : Option (List (String × JsValue)) :=
  match v with
  | .obj fs =>
      match fs.lookup "years" with
      | some (.obj g) => some g
      | _ => none
  | _ => none

/-- C5: for a fixed current year, the timeseries schema gives every figure a
`years` sub-map whose keys are exactly the decimal strings of the eight
consecutive calendar years from three before to four after the current one,
in ascending order with no duplicates. -/
theorem claim_C5_year_window (now : Int) :
    fieldKeys (yearsFields now) =
      List.map intStr
        [now - 3, now - 2, now - 1, now, now + 1, now + 2, now + 3, now + 4] ∧
    (fieldKeys (yearsFields now)).Nodup ∧
    List.Chain' (fun a b => b = a + 1)
      [now - 3, now - 2, now - 1, now, now + 1, now + 2, now + 3, now + 4] ∧
    (∀ figs p, p ∈ financialDataTS figs now → ∃ f ∈ figs, p.2 = tsEntry f now) ∧
    (∀ f : FigureDefinition, yearsOf (tsEntry f now) = some (yearsFields now)) := by
  have hyn : (yearLabels now).Nodup := by
    have hint : ([now - 3, now - 2, now - 1, now, now + 1, now + 2, now + 3,
        now + 4] : List Int).Nodup := by
      simp only [List.nodup_cons, List.mem_cons, List.not_mem_nil, or_false,
        List.nodup_nil, and_true, not_false_eq_true]
      refine ⟨?_, ?_, ?_, ?_, ?_, ?_, ?_⟩ <;> omega
    have : yearLabels now = List.map intStr
        [now - 3, now - 2, now - 1, now, now + 1, now + 2, now + 3, now + 4] := rfl
    rw [this]
    exact hint.map intStr_injective
  have hkeys : fieldKeys (yearsFields now) = yearLabels now := by
    rw [yearsFields_eq, fieldKeys_foldAssign_of_nodup id _ _ []
      (by simpa using hyn) (by simp [fieldKeys_nil])]
    simp [fieldKeys_nil]
  refine ⟨by rw [hkeys]; rfl, by rw [hkeys]; exact hyn, ?_, ?_, fun f => rfl⟩
  · simp only [List.chain'_cons, List.chain'_singleton, and_true]
    exact ⟨by omega, by omega, by omega, trivial, by omega, by omega, by omega⟩
  · intro figs p hp
    rw [financialDataTS_eq] at hp
    rcases mem_foldAssign _ _ _ _ _ hp with h1 | h1
    · cases h1
    · exact h1

theorem claim_C5_year_window_witness :
    fieldKeys (yearsFields 2025) =
      List.map intStr [2022, 2023, 2024, 2025, 2026, 2027, 2028, 2029] ∧
    yearsOf (tsEntry ⟨"revenue", "Revenue", "Total revenue"⟩ 2025) =
      some (yearsFields 2025) := by
  have h := claim_C5_year_window 2025
  refine ⟨?_, h.2.2.2.2 ⟨"revenue", "Revenue", "Total revenue"⟩⟩
  have := h.1
  norm_num at this ⊢
  exact this

/-- C9: the prompt generators are pure functions of their inputs; two calls
with the same figures, subject name and upload flag produce identical
strings — the single-period generator regardless of the ambient clock year,
the timeseries generator whenever the clock year agrees. -/
theorem claim_C9_generator_purity (c : String) (iso : Bool)
    (ov : Option (List FigureDefinition)) (ld : List FigureDefinition)
    (y1 y2 : Int) :
    generateFinancePrompt c iso ov ld y1 = generateFinancePrompt c iso ov ld y2 ∧
    (y1 = y2 →
      generateTimeSeriesFinancePrompt c iso ov ld y1 =
        generateTimeSeriesFinancePrompt c iso ov ld y2) :=
  ⟨rfl, fun h => by rw [h]⟩

theorem claim_C9_generator_purity_witness :
    generateFinancePrompt "Acme" false none demoFigs 2024 =
      generateFinancePrompt "Acme" false none demoFigs 2025 ∧
    generateTimeSeriesFinancePrompt "Acme" true (some demoFigs) [] 2025 =
      generateTimeSeriesFinancePrompt "Acme" true (some demoFigs) [] 2025 :=
  ⟨(claim_C9_generator_purity "Acme" false none demoFigs 2024 2025).1,
   (claim_C9_generator_purity "Acme" true (some demoFigs) [] 2025 2025).2 rfl⟩


/-! ## Figure Registry manager (`src/components/AnalyzableFiguresManager.tsx`) -/

/-- Registry record of the figure manager UI. -/
structure AnalyzableFigure where
  id : String
  name : String
  description : String
  enabled : Bool
  order : Nat
deriving DecidableEq

/-- Model of `updateFigureOrder`: clamp the target position into `[1, n]`,
remove the moved figure, splice it back in at the clamped position, and
renumber every figure's `order` to its 1-based index. -/
def updateFigureOrder (figures : List AnalyzableFigure) (id : String)
    (newOrder : Int) : List AnalyzableFigure :=
  let validOrder : Int := max 1 (min (figures.length : Int) newOrder)
  match figures.find? (fun f => f.id == id) with
  | none => figures
  | some figureToMove =>
      let filtered := figures.filter (fun f => f.id != id)
      let inserted := filtered.insertIdx (validOrder.toNat - 1)
        { figureToMove with order := validOrder.toNat }
      inserted.mapIdx fun i f => { f with order := i + 1 }

theorem orders_mapIdx (l : List AnalyzableFigure) :
    (l.mapIdx fun i f => { f with order := i + 1 }).map (·.order) =
      List.range' 1 l.length := by
  apply List.ext_getElem
  · simp
  · intro i h1 h2
    rw [List.getElem_map, List.getElem_mapIdx, List.getElem_range']
    show i + 1 = 1 + 1 * i
    omega

theorem length_filter_ne_of_nodup (figures : List AnalyzableFigure)
    (id : String) (hnodup : (figures.map (·.id)).Nodup)
    (hmem : id ∈ figures.map (·.id)) :
    (figures.filter (fun f => f.id != id)).length = figures.length - 1 := by
  have hfm : List.filter (fun s => s != id) (figures.map (·.id)) =
      (figures.filter (fun f => f.id != id)).map (·.id) := by
    rw [List.filter_map]
    rfl
  have herase : (figures.map (·.id)).erase id =
      List.filter (fun s => s != id) (figures.map (·.id)) :=
    List.Nodup.erase_eq_filter hnodup id
  have hlen : ((figures.map (·.id)).erase id).length =
      (figures.map (·.id)).length - 1 :=
    List.length_erase_of_mem hmem
  have := herase ▸ hlen
  rw [hfm] at this
  simpa using this

/-- C7: for every registry with distinct ids, every id present in it and
every integer target position, reordering clamps the position into `[1, n]`,
keeps the length, renumbers the `order` fields to exactly the contiguous
sequence `1..n`, and puts the moved figure (with its clamped order) at the
clamped 1-based position. -/
theorem claim_C7_reorder (figures : List AnalyzableFigure) (id : String)
    (p : Int) (hnodup : (figures.map (·.id)).Nodup)
    (hmem : id ∈ figures.map (·.id)) :
    (updateFigureOrder figures id p).length = figures.length ∧
    (updateFigureOrder figures id p).map (·.order) =
      List.range' 1 figures.length ∧
    1 ≤ (max 1 (min (figures.length : Int) p)).toNat ∧
    (max 1 (min (figures.length : Int) p)).toNat ≤ figures.length ∧
    ∃ f, figures.find? (fun g => g.id == id) = some f ∧
      (updateFigureOrder figures id p)[(max 1 (min (figures.length : Int) p)).toNat - 1]? =
        some { f with order := (max 1 (min (figures.length : Int) p)).toNat } := by
  obtain ⟨g, hg, hgid⟩ := List.mem_map.mp hmem
  have hn1 : 1 ≤ figures.length := List.length_pos.mpr (List.ne_nil_of_mem hg)
  have hfind : (figures.find? (fun f => f.id == id)).isSome := by
    rw [List.find?_isSome]
    exact ⟨g, hg, by simp [hgid]⟩
  obtain ⟨f, hf⟩ := Option.isSome_iff_exists.mp hfind
  have hc1 : 1 ≤ (max 1 (min (figures.length : Int) p)).toNat := by omega
  have hcn : (max 1 (min (figures.length : Int) p)).toNat ≤ figures.length := by
    omega
  have hflen : (figures.filter (fun f => f.id != id)).length =
      figures.length - 1 := length_filter_ne_of_nodup figures id hnodup hmem
  have hidx : (max 1 (min (figures.length : Int) p)).toNat - 1 ≤
      (figures.filter (fun f => f.id != id)).length := by
    omega
  have hinslen :
      ((figures.filter (fun f => f.id != id)).insertIdx
        ((max 1 (min (figures.length : Int) p)).toNat - 1)
        { f with order := (max 1 (min (figures.length : Int) p)).toNat }).length =
      figures.length := by
    rw [List.length_insertIdx _ _ hidx]
    omega
  have hres : updateFigureOrder figures id p =
      ((figures.filter (fun f => f.id != id)).insertIdx
        ((max 1 (min (figures.length : Int) p)).toNat - 1)
        { f with order := (max 1 (min (figures.length : Int) p)).toNat }).mapIdx
        fun i x => { x with order := i + 1 } := by
    simp only [updateFigureOrder, hf]
  refine ⟨?_, ?_, hc1, hcn, f, hf, ?_⟩
  · rw [hres]
    simp [hinslen]
  · rw [hres, orders_mapIdx, hinslen]
  · have hlt : (max 1 (min (figures.length : Int) p)).toNat - 1 <
        (updateFigureOrder figures id p).length := by
      rw [hres]
      simp only [List.length_mapIdx]
      omega
    refine (List.getElem?_eq_getElem hlt).trans (congrArg some ?_)
    have hlt2 : (max 1 (min (figures.length : Int) p)).toNat - 1 <
        (((figures.filter (fun f => f.id != id)).insertIdx
          ((max 1 (min (figures.length : Int) p)).toNat - 1)
          { f with order := (max 1 (min (figures.length : Int) p)).toNat }).mapIdx
          fun i x => { x with order := i + 1 }).length := by
      simp only [List.length_mapIdx]
      omega
    rw [List.getElem_of_eq hres hlt, List.getElem_mapIdx,
      List.getElem_insertIdx_self _ _ _ hidx]
    have hcc : (max 1 (min (figures.length : Int) p)).toNat - 1 + 1 =
        (max 1 (min (figures.length : Int) p)).toNat := by omega
    rw [hcc]

/-- Concrete registry used by witnesses. -/
def demoRegistry : List AnalyzableFigure :=
  [{ id := "revenue", name := "Revenue", description := "Total revenue",
     enabled := true, order := 1 },
   { id := "profit", name := "Profit", description := "Net profit",
     enabled := true, order := 2 },
   { id := "costs", name := "Costs", description := "Total costs",
     enabled := true, order := 3 }]

theorem claim_C7_reorder_witness :
    (updateFigureOrder demoRegistry "revenue" 99).length = demoRegistry.length ∧
    (updateFigureOrder demoRegistry "revenue" 99).map (·.order) =
      List.range' 1 demoRegistry.length ∧
    1 ≤ (max 1 (min (demoRegistry.length : Int) 99)).toNat ∧
    (max 1 (min (demoRegistry.length : Int) 99)).toNat ≤ demoRegistry.length ∧
    ∃ f, demoRegistry.find? (fun g => g.id == "revenue") = some f ∧
      (updateFigureOrder demoRegistry "revenue"
        99)[(max 1 (min (demoRegistry.length : Int) 99)).toNat - 1]? =
        some { f with order := (max 1 (min (demoRegistry.length : Int) 99)).toNat } :=
  claim_C7_reorder demoRegistry "revenue" 99 (by decide) (by decide)


/-! ## Registry create: id derivation and the missing duplicate check -/

/-- Lowercase-letter-or-digit test for the slug alphabet `[a-z0-9]`. -/
def isLowerAlnum (c : Char) : Bool :=
  ('a' ≤ c && c ≤ 'z') || ('0' ≤ c && c ≤ '9')

/-- Replacement of `/[^a-z0-9]/g` matches with underscores. -/
def underscoreify (c : Char) : Char :=
  if isLowerAlnum c then c else '_'

/-- Collapse of every run of consecutive underscores to a single one, as the
`/_+/g` replacement with a single underscore does. -/
def collapseUnders : Str → Str
  | [] => []
  | [c] => [c]
  | c :: d :: rest =>
      if c = '_' ∧ d = '_' then collapseUnders (d :: rest)
      else c :: collapseUnders (d :: rest)

/-- Removal of the single leading underscore matched by `/^_/`. -/
def dropLeadUnder : Str → Str
  | [] => []
  | c :: r => if c = '_' then r else c :: r

/-- Removal of the single trailing underscore matched by `/_$/`. -/
def dropTrailUnder (s : Str) : Str :=
  (dropLeadUnder s.reverse).reverse

/-- Model of the manager's `generateId`: lower-case the name, replace every
character outside `[a-z0-9]` with an underscore, collapse underscore runs,
and strip one leading and one trailing underscore. -/
def generateId (name : String) : String :=
  String.mk (dropTrailUnder (dropLeadUnder
    (collapseUnders ((name.data.map Char.toLower).map underscoreify))))

/-- Whitespace stripped by JS `String.prototype.trim` (ASCII fragment). -/
def isJsSpace (c : Char) : Bool :=
  c = ' ' || c = '\t' || c = '\n' || c = '\r'

/-- Model of JS `trim` on character lists. -/
def jsTrim (s : Str) : Str :=
  ((s.dropWhile isJsSpace).reverse.dropWhile isJsSpace).reverse

/-- Model of JS `trim` on strings. -/
def trimS (s : String) : String := String.mk (jsTrim s.data)

/-- Largest `order` value in the registry, per
`Math.max(...figures.map(f => f.order), 0)`. -/
def maxOrder (figures : List AnalyzableFigure) : Nat :=
  figures.foldr (fun f a => max f.order a) 0

/-- Model of the manager's `addFigure`: a blank name or description is a
no-op; otherwise the new figure is appended with the derived id, with no
duplicate-id check. -/
def addFigure (figures : List AnalyzableFigure) (name description : String) :
    List AnalyzableFigure :=
  if trimS name = "" ∨ trimS description = "" then figures
  else figures ++
    [{ id := generateId name, name := trimS name,
       description := trimS description, enabled := true,
       order := maxOrder figures + 1 }]

theorem mem_collapseUnders : ∀ s : Str, ∀ c ∈ collapseUnders s, c ∈ s := by
  intro s
  induction s with
  | nil => intro c hc; cases hc
  | cons a rest ih =>
      cases rest with
      | nil => intro c hc; exact hc
      | cons b rest2 =>
          intro c hc
          rw [collapseUnders] at hc
          by_cases hab : a = '_' ∧ b = '_'
          · rw [if_pos hab] at hc
            exact List.mem_cons_of_mem a (ih c hc)
          · rw [if_neg hab] at hc
            rcases List.mem_cons.mp hc with rfl | h2
            · exact List.mem_cons_self _ _
            · exact List.mem_cons_of_mem a (ih c h2)

theorem mem_dropLeadUnder {s : Str} {c : Char} (h : c ∈ dropLeadUnder s) :
    c ∈ s := by
  match s with
  | [] => exact h
  | a :: r =>
      rw [dropLeadUnder] at h
      by_cases ha : a = '_'
      · rw [if_pos ha] at h
        exact List.mem_cons_of_mem _ h
      · rwa [if_neg ha] at h

theorem generateId_chars (name : String) :
    ∀ c ∈ (generateId name).data, isLowerAlnum c ∨ c = '_' := by
  intro c hc
  have h1 : c ∈ (name.data.map Char.toLower).map underscoreify := by
    unfold generateId dropTrailUnder at hc
    have h2 := List.mem_reverse.mp hc
    have h3 := mem_dropLeadUnder h2
    have h4 := List.mem_reverse.mp h3
    have h5 := mem_dropLeadUnder h4
    exact mem_collapseUnders _ c h5
  obtain ⟨d, _, hd2⟩ := List.mem_map.mp h1
  unfold underscoreify at hd2
  by_cases hld : isLowerAlnum d
  · rw [if_pos hld] at hd2
    exact Or.inl (hd2 ▸ hld)
  · rw [if_neg hld] at hd2
    exact Or.inr hd2.symm

/-- C8 (amended): `create` derives the new id by lower-casing the name,
collapsing non-alphanumeric runs to single underscores and trimming edge
underscores (so the id uses only `[a-z0-9_]`), but performs no duplicate
check: the new figure is appended unconditionally, and when the derived id
already exists the registry is left with two figures sharing one id. -/
theorem claim_C8_create_no_dup_check (figures : List AnalyzableFigure)
    (name description : String)
    (h1 : trimS name ≠ "") (h2 : trimS description ≠ "") :
    addFigure figures name description = figures ++
      [{ id := generateId name, name := trimS name,
         description := trimS description, enabled := true,
         order := maxOrder figures + 1 }] ∧
    (∀ c ∈ (generateId name).data, isLowerAlnum c ∨ c = '_') ∧
    (generateId name ∈ figures.map (·.id) →
      ¬ ((addFigure figures name description).map (·.id)).Nodup) := by
  have happ : addFigure figures name description = figures ++
      [{ id := generateId name, name := trimS name,
         description := trimS description, enabled := true,
         order := maxOrder figures + 1 }] := by
    simp [addFigure, h1, h2]
  refine ⟨happ, generateId_chars name, fun hdup hnd => ?_⟩
  rw [happ, List.map_append] at hnd
  have hnd2 : (generateId name :: figures.map (·.id)).Nodup :=
    (List.perm_append_singleton _ _).nodup (by simpa using hnd)
  exact (List.nodup_cons.mp hnd2).1 hdup

theorem claim_C8_create_no_dup_check_witness :
    addFigure demoRegistry "Gross Margin" "Gross profit share" = demoRegistry ++
      [{ id := generateId "Gross Margin", name := trimS "Gross Margin",
         description := trimS "Gross profit share", enabled := true,
         order := maxOrder demoRegistry + 1 }] ∧
    (∀ c ∈ (generateId "Gross Margin").data, isLowerAlnum c ∨ c = '_') ∧
    (generateId "Gross Margin" ∈ demoRegistry.map (·.id) →
      ¬ ((addFigure demoRegistry "Gross Margin" "Gross profit share").map
          (·.id)).Nodup) :=
  claim_C8_create_no_dup_check demoRegistry "Gross Margin" "Gross profit share"
    (by decide) (by decide)

/-- C8 (counterexample): adding the name `Revenue!` to a registry that
already holds id `revenue` appends a second figure with the same id — the
create neither fails nor pre-checks, refuting the claim that the UI never
leaves two figures sharing one id. -/
theorem claim_C8_counterexample :
    (addFigure demoRegistry "Revenue!" "Net sales").map (·.id) =
      ["revenue", "profit", "costs", "revenue"] ∧
    ¬ ((addFigure demoRegistry "Revenue!" "Net sales").map (·.id)).Nodup :=
  ⟨by decide, by decide⟩


/-! ## Bulk figure import from tabular rows (`FinanceAnalyzer.tsx`) -/

/-- Normalized content of one sheet row: the `name`/`metric` column and the
`instructions`/`guidance`/`description` column, both defaulted to the empty
string. -/
structure ExcelRow where
  name : String
  instructions : String

/-- Model of `slugifyFigureId`: lower-case, replace each run of characters
outside `[a-z0-9]` with one underscore, strip edge underscores, and fall
back to `figure_<index+1>` when nothing remains. -/
def slugifyFigureId (value : String) (fallbackIndex : Nat) : String :=
  let sanitized := String.mk (dropTrailUnder (dropLeadUnder
    (collapseUnders ((value.data.map Char.toLower).map underscoreify))))
  if sanitized = "" then "figure_" ++ natStr (fallbackIndex + 1) else sanitized

/-- Candidate id with a numeric suffix. -/
def suffixedId (base : String) (k : Nat) : String :=
  base ++ "_" ++ natStr k

/-- Import loop of the `while (seenIds.has(id))` search, with fuel. -/
def freshIdGo (seen : List String) (base : String) : Nat → Nat → String
  | 0, k => suffixedId base k
  | fuel + 1, k =>
      if suffixedId base k ∈ seen then freshIdGo seen base fuel (k + 1)
      else suffixedId base k

/-- Collision resolution of the import: try the slug itself, then `slug_1`,
`slug_2`, ... until an id not yet taken is found. -/
def freshId (seen : List String) (base : String) : String :=
  if base ∈ seen then freshIdGo seen base (seen.length + 1) 1 else base

/-- Figure produced by the import (the source sets no `order`). -/
structure ImportedFigure where
  id : String
  name : String
  description : String
  enabled : Bool
deriving DecidableEq

/-- Row-by-row construction of the imported figures: blank names are
dropped, ids resolved against the ids already taken by earlier rows. -/
def buildFigures : List ExcelRow → Nat → List String → List ImportedFigure
  | [], _, _ => []
  | row :: rest, index, seen =>
      if trimS row.name = "" then buildFigures rest (index + 1) seen
      else
        let id := freshId seen (slugifyFigureId (trimS row.name) index)
        { id := id, name := trimS row.name,
          description := if trimS row.instructions = "" then
            "No guidance provided." else trimS row.instructions,
          enabled := true } :: buildFigures rest (index + 1) (id :: seen)

/-- Error surfaced when no valid row survives. -/
def noRowsMsg : String :=
  "No valid rows found. Please provide at least one row with \"Name\" and \"Instructions\" columns."

/-- Model of `handleExcelUpload` outcome on the figure state: on zero
surviving rows the error is set and the current figure list is untouched;
otherwise the parsed figures replace it. -/
def handleExcelUpload (current : List ImportedFigure) (rows : List ExcelRow) :
    List ImportedFigure × Option String :=
  let parsed := buildFigures rows 0 []
  if parsed.length = 0 then (current, some noRowsMsg)
  else (parsed, none)

theorem natStr_injective : Function.Injective natStr := by
  intro a b h
  exact natDec_injective (congrArg String.data h)

theorem suffixedId_injective (base : String) :
    Function.Injective (suffixedId base) := by
  intro a b h
  unfold suffixedId at h
  have hd := congrArg String.data h
  rw [String.data_append, String.data_append, String.data_append,
    String.data_append] at hd
  have := List.append_cancel_left hd
  exact natStr_injective (congrArg String.mk this)

theorem exists_fresh_suffix (seen : List String) (base : String) :
    ∃ j, 1 ≤ j ∧ j < seen.length + 2 ∧ suffixedId base j ∉ seen := by
  by_contra hno
  push_neg at hno
  have hsub : ∀ x ∈ (List.range' 1 (seen.length + 1)).map (suffixedId base),
      x ∈ seen.toFinset := by
    intro x hx
    obtain ⟨j, hj, rfl⟩ := List.mem_map.mp hx
    rw [List.mem_range'_1] at hj
    rw [List.mem_toFinset]
    exact hno j hj.1 (by omega)
  have hnodup : ((List.range' 1 (seen.length + 1)).map (suffixedId base)).Nodup :=
    List.Nodup.map (suffixedId_injective base) (List.nodup_range' 1 (seen.length + 1))
  have hcard1 : ((List.range' 1 (seen.length + 1)).map (suffixedId base)).toFinset.card
      = seen.length + 1 := by
    rw [List.toFinset_card_of_nodup hnodup]
    simp
  have hle : ((List.range' 1 (seen.length + 1)).map (suffixedId base)).toFinset ⊆
      seen.toFinset := by
    intro x hx
    exact hsub x (List.mem_toFinset.mp hx)
  have := Finset.card_le_card hle
  have := List.toFinset_card_le seen
  omega

theorem freshIdGo_spec (seen : List String) (base : String) :
    ∀ fuel k, (∃ j, k ≤ j ∧ j < k + fuel ∧ suffixedId base j ∉ seen) →
    ∃ j, k ≤ j ∧ freshIdGo seen base fuel k = suffixedId base j ∧
      suffixedId base j ∉ seen ∧
      ∀ i, k ≤ i → i < j → suffixedId base i ∈ seen := by
  intro fuel
  induction fuel with
  | zero =>
      rintro k ⟨j, hj1, hj2, _⟩
      omega
  | succ fuel ih =>
      intro k hex
      rw [freshIdGo]
      by_cases hk : suffixedId base k ∈ seen
      · rw [if_pos hk]
        have hex2 : ∃ j, k + 1 ≤ j ∧ j < (k + 1) + fuel ∧
            suffixedId base j ∉ seen := by
          obtain ⟨j, hj1, hj2, hj3⟩ := hex
          refine ⟨j, ?_, by omega, hj3⟩
          rcases Nat.eq_or_lt_of_le hj1 with rfl | h
          · exact absurd hk hj3
          · omega
        obtain ⟨j, hj1, hj2, hj3, hj4⟩ := ih (k + 1) hex2
        refine ⟨j, by omega, hj2, hj3, fun i hi1 hi2 => ?_⟩
        rcases Nat.eq_or_lt_of_le hi1 with rfl | h
        · exact hk
        · exact hj4 i (by omega) hi2
      · rw [if_neg hk]
        exact ⟨k, le_refl k, rfl, hk, fun i hi1 hi2 => by omega⟩

theorem freshId_spec (seen : List String) (base : String) :
    freshId seen base ∉ seen ∧
    (base ∉ seen → freshId seen base = base) ∧
    (base ∈ seen → ∃ k, 1 ≤ k ∧ freshId seen base = suffixedId base k ∧
      ∀ i, 1 ≤ i → i < k → suffixedId base i ∈ seen) := by
  unfold freshId
  by_cases hb : base ∈ seen
  · rw [if_pos hb]
    obtain ⟨j, hj1, hj2, hj3⟩ := exists_fresh_suffix seen base
    obtain ⟨k, hk1, hk2, hk3, hk4⟩ :=
      freshIdGo_spec seen base (seen.length + 1) 1 ⟨j, hj1, by omega, hj3⟩
    exact ⟨hk2 ▸ hk3, fun hnb => absurd hb hnb, fun _ => ⟨k, hk1, hk2, hk4⟩⟩
  · rw [if_neg hb]
    exact ⟨hb, fun _ => rfl, fun hmem => absurd hmem hb⟩

theorem buildFigures_names : ∀ (rows : List ExcelRow) (index : Nat)
    (seen : List String),
    (buildFigures rows index seen).map (·.name) =
      (rows.map (fun r => trimS r.name)).filter (fun s => s ≠ "") := by
  intro rows
  induction rows with
  | nil => intro index seen; rfl
  | cons row rest ih =>
      intro index seen
      rw [buildFigures]
      by_cases hb : trimS row.name = ""
      · rw [if_pos hb]
        simp [List.filter_cons, hb, ih]
      · rw [if_neg hb]
        simp [List.filter_cons, hb, ih]

theorem buildFigures_ids_nodup : ∀ (rows : List ExcelRow) (index : Nat)
    (seen : List String), seen.Nodup →
    ((buildFigures rows index seen).map (·.id) ++ seen).Nodup := by
  intro rows
  induction rows with
  | nil =>
      intro index seen hseen
      simpa using hseen
  | cons row rest ih =>
      intro index seen hseen
      rw [buildFigures]
      by_cases hb : trimS row.name = ""
      · rw [if_pos hb]
        exact ih (index + 1) seen hseen
      · rw [if_neg hb]
        have hfresh : freshId seen (slugifyFigureId (trimS row.name) index) ∉
            seen := (freshId_spec seen _).1
        have hih := ih (index + 1)
          (freshId seen (slugifyFigureId (trimS row.name) index) :: seen)
          (List.nodup_cons.mpr ⟨hfresh, hseen⟩)
        simp only [List.map_cons, List.cons_append]
        exact List.perm_middle.nodup hih


/-- C6: in bulk import, every row with a blank name is dropped (surviving
names appear in row order), the resolved ids are pairwise distinct with
collisions settled by the first free `_1, _2, ...` suffix in row order, and
a batch with zero surviving rows fails with the descriptive error leaving
the current figure list untouched, while a non-empty batch replaces it. -/
theorem claim_C6_bulk_import (rows : List ExcelRow)
    (current : List ImportedFigure) :
    (buildFigures rows 0 []).map (·.name) =
      (rows.map (fun r => trimS r.name)).filter (fun s => s ≠ "") ∧
    ((buildFigures rows 0 []).map (·.id)).Nodup ∧
    (∀ seen base, freshId seen base ∉ seen ∧
      (base ∉ seen → freshId seen base = base) ∧
      (base ∈ seen → ∃ k, 1 ≤ k ∧ freshId seen base = suffixedId base k ∧
        ∀ i, 1 ≤ i → i < k → suffixedId base i ∈ seen)) ∧
    (buildFigures rows 0 [] = [] →
      handleExcelUpload current rows = (current, some noRowsMsg)) ∧
    (buildFigures rows 0 [] ≠ [] →
      handleExcelUpload current rows = (buildFigures rows 0 [], none)) := by
  refine ⟨buildFigures_names rows 0 [], ?_, fun seen base => freshId_spec seen base,
    fun hz => ?_, fun hnz => ?_⟩
  · have := buildFigures_ids_nodup rows 0 [] List.nodup_nil
    simpa using this
  · unfold handleExcelUpload
    rw [hz]
    rfl
  · unfold handleExcelUpload
    rw [if_neg (fun hlen => hnz (List.length_eq_zero.mp hlen))]

/-- Concrete rows used by the import witness: a collision, a blank row. -/
def demoRows : List ExcelRow :=
  [⟨"Revenue", "a"⟩, ⟨"  ", "x"⟩, ⟨"revenue!", ""⟩]

theorem claim_C6_bulk_import_witness :
    (buildFigures demoRows 0 []).map (·.name) =
      (demoRows.map (fun r => trimS r.name)).filter (fun s => s ≠ "") ∧
    ((buildFigures demoRows 0 []).map (·.id)).Nodup ∧
    handleExcelUpload [] demoRows = (buildFigures demoRows 0 [], none) ∧
    handleExcelUpload [⟨"kept", "Kept", "old", true⟩] [⟨" ", "y"⟩] =
      ([⟨"kept", "Kept", "old", true⟩], some noRowsMsg) := by
  have h := claim_C6_bulk_import demoRows []
  have h2 := claim_C6_bulk_import [⟨" ", "y"⟩] [⟨"kept", "Kept", "old", true⟩]
  exact ⟨h.1, h.2.1, h.2.2.2.2 (by decide), h2.2.2.2.1 (by decide)⟩


/-! ## Registry GET route (`src/app/api/analyzable-figures/route.ts`)

The file system is modelled as the optional contents of the configuration
file; the route maps that state to a new state plus the HTTP result. -/

/-- Default configuration written and returned when the file is missing. -/
def defaultFiguresConfig : JsValue :=
  .obj [("figures", .arr [
    .obj [("id", .str "revenue"), ("name", .str "Revenue"),
          ("description", .str "Total revenue, net sales, turnover - the total income from all sources before any expenses are deducted"),
          ("enabled", .bool true), ("order", .num 1)],
    .obj [("id", .str "profit"), ("name", .str "Profit"),
          ("description", .str "Net profit, net income, profit after tax - the final profit figure after all expenses, taxes, and costs have been deducted"),
          ("enabled", .bool true), ("order", .num 2)],
    .obj [("id", .str "costs"), ("name", .str "Costs"),
          ("description", .str "Total costs, expenses, cost of goods sold, operating expenses - all expenses incurred in running the business"),
          ("enabled", .bool true), ("order", .num 3)]])]

/-- Model of the registry GET handler: with no file, write the default
configuration (two-space pretty-printed) and return it; with a file, parse
and return it, or answer the 500 error on a parse failure. -/
def analyzableFiguresGET (file : Option String) :
    Option String × Except String JsValue :=
  match file with
  | none => (some (stringify2 defaultFiguresConfig), .ok defaultFiguresConfig)
  | some contents =>
      match jsonParse contents.data with
      | some v => (some contents, .ok v)
      | none => (some contents, .error "Failed to load configuration")

/-- String field of a JSON object's field list. -/
def fieldStr (g : List (String × JsValue)) (k : String) : Option String :=
  match g.lookup k with
  | some (.str s) => some s
  | _ => none

/-- Integer field of a JSON object's field list. -/
def fieldInt (g : List (String × JsValue)) (k : String) : Option Int :=
  match g.lookup k with
  | some (.num n) => some n
  | _ => none

/-- Boolean field of a JSON object's field list. -/
def fieldBool (g : List (String × JsValue)) (k : String) : Option Bool :=
  match g.lookup k with
  | some (.bool b) => some b
  | _ => none

/-- The (id, order, enabled) triple of one figure value. -/
def figureSummary (x : JsValue) : Option String × Option Int × Option Bool :=
  match x with
  | .obj g => (fieldStr g "id", fieldInt g "order", fieldBool g "enabled")
  | _ => (none, none, none)

/-- The (id, order, enabled) triples of a configuration value. -/
def configSummary (v : JsValue) :
    Option (List (Option String × Option Int × Option Bool)) :=
  match v with
  | .obj fs =>
      match fs.lookup "figures" with
      | some (.arr xs) => some (xs.map figureSummary)
      | _ => none
  | _ => none

set_option maxRecDepth 100000 in
/-- C10: a GET with no configuration file writes the default file holding
exactly the three enabled figures `revenue`, `profit`, `costs` with orders
1, 2, 3 and returns that configuration; a subsequent GET parses the file it
wrote back to the very same configuration. -/
theorem claim_C10_default_config :
    analyzableFiguresGET none =
      (some (stringify2 defaultFiguresConfig), .ok defaultFiguresConfig) ∧
    analyzableFiguresGET (some (stringify2 defaultFiguresConfig)) =
      (some (stringify2 defaultFiguresConfig), .ok defaultFiguresConfig) ∧
    configSummary defaultFiguresConfig =
      some [(some "revenue", some 1, some true),
            (some "profit", some 2, some true),
            (some "costs", some 3, some true)] := by
  refine ⟨rfl, ?_, by decide⟩
  have hround : jsonParse (stringify2 defaultFiguresConfig).data =
      some defaultFiguresConfig := by decide
  show (match jsonParse (stringify2 defaultFiguresConfig).data with
    | some v => (some (stringify2 defaultFiguresConfig), Except.ok v)
    | none => (some (stringify2 defaultFiguresConfig),
        Except.error "Failed to load configuration")) =
    (some (stringify2 defaultFiguresConfig), Except.ok defaultFiguresConfig)
  rw [hround]

end DocReader
